import Mathlib

/-!
Shallow embedding of the routing-and-pairing core of the group-chat
application (backend/llm_core.py, backend/app.py,
backend/agents/inventory_agent.py, backend/agents/lesson_plan_agent.py),
together with proofs settling the frozen claims about it.

Conventions used throughout:
* Python floats that only ever hold small exact decimals (confidences,
  quantities, thresholds) are modelled as rationals.
* Python exceptions are modelled with Except: a call that can raise
  returns Except String β, the String being str(e).
* External collaborators (the chat-completion endpoint) are passed in as
  function parameters of type List ChatMsg → Except String String.
-/

namespace GroupChat

/-- A role-tagged prompt segment, as passed to chat_completion. -/
structure ChatMsg where
  role : String
  content : String
deriving DecidableEq, Repr

/-- The context dict built in maybe_answer_with_llm (app.py): username and a
timestamp.  The agents under verification never read it, but it is threaded
through faithfully. -/
structure Ctx where
  username : String
  timestamp : ℚ

/-- AgentResult shape: what every agent execution produces
(success, message, data, actions). -/
structure AgentResult (α : Type) where
  success : Bool
  message : String
  data : Option α
  actions : List String
deriving DecidableEq

/-- A registered handler: static name, can_handle classification and
execute.  execute may raise (Except.error carries str(e)); can_handle is a
pure classification per the capability contract. -/
structure Agent (α : Type) where
  name : String
  canHandle : String → Ctx → Bool × ℚ
  execute : String → Ctx → Except String (AgentResult α)

/-- The RouteResult dict returned by LLMRouter.route_message. -/
structure RouteResult (α : Type) where
  agent_used : String
  confidence : ℚ
  response : String
  data : Option α
  success : Bool
  actions : List String
deriving DecidableEq

/-- An apostrophe character, used inside string constants. -/
def apos : Char := Char.ofNat 39

/-- The fixed role preamble of LLMRouter._fallback_llm_response. -/
def fallbackSystemPrompt : String :=
  "You are an AI assistant for a STEM center group chat. " ++
  "You help teachers with inventory, lesson plans, approvals, and procurement. " ++
  "Be concise, helpful, and professional. If you" ++ String.mk [apos] ++
  "re unsure, guide the user on what you can help with."

/-- The agent_scores list of route_message: invoke can_handle on every
registered agent, in registration order, keeping the claiming ones with
their confidence. -/
def claimedScores {α : Type} (agents : List (Agent α)) (msg : String) (ctx : Ctx) :
    List (Agent α × ℚ) :=
  agents.filterMap fun a =>
    match a.canHandle msg ctx with
    | (true, conf) => some (a, conf)
    | (false, _) => none

/-- One step of a stable descending insertion sort on confidence: an element
is placed before the first element whose confidence is at most its own, so
among equal confidences the earlier element stays first. -/
def insertDesc {α : Type} (x : Agent α × ℚ) : List (Agent α × ℚ) → List (Agent α × ℚ)
  | [] => [x]
  | y :: ys => if y.2 ≤ x.2 then x :: y :: ys else y :: insertDesc x ys

/-- agent_scores.sort(key=lambda x: x[1], reverse=True): Python list.sort is
stable, modelled as a stable insertion sort descending on confidence. -/
def sortByConfDesc {α : Type} : List (Agent α × ℚ) → List (Agent α × ℚ)
  | [] => []
  | x :: xs => insertDesc x (sortByConfDesc xs)

/-- The RouteResult built when a best agent has been selected: execute it,
catching any exception and converting it into a success:false result whose
response starts with "Error executing agent: ". -/
def runAgent {α : Type} (a : Agent α) (conf : ℚ) (msg : String) (ctx : Ctx) :
    RouteResult α :=
  match a.execute msg ctx with
  | .ok result =>
      ⟨a.name, conf, result.message, result.data, result.success, result.actions⟩
  | .error e =>
      ⟨a.name, conf, "Error executing agent: " ++ e, none, false, ["error"]⟩

/-- LLMRouter._fallback_llm_response: call the generic completion with the
fixed role preamble and the raw user text; on success confidence 0.3, on
failure confidence 0.0 with a "Sorry, I encountered an error: " response. -/
def fallback_llm_response {α : Type} (chat : List ChatMsg → Except String String)
    (userMessage : String) : RouteResult α :=
  match chat [⟨"system", fallbackSystemPrompt⟩, ⟨"user", userMessage⟩] with
  | .ok response => ⟨"GeneralLLM", 0.3, response, none, true, ["general_chat"]⟩
  | .error e =>
      ⟨"GeneralLLM", 0.0, "Sorry, I encountered an error: " ++ e, none, false, ["error"]⟩

/-- LLMRouter.route_message: score every agent, sort claimants by confidence
descending (stable), execute the top claimant catching exceptions, or fall
back to the generic completion when nobody claims the message. -/
def route_message {α : Type} (agents : List (Agent α))
    (chat : List ChatMsg → Except String String) (userMessage : String) (ctx : Ctx) :
    RouteResult α :=
  match sortByConfDesc (claimedScores agents userMessage ctx) with
  | best :: _ => runAgent best.1 best.2 userMessage ctx
  | [] => fallback_llm_response chat userMessage

/-- The first element of the list attaining the maximal confidence. -/
def firstMax {α : Type} : List (Agent α × ℚ) → Option (Agent α × ℚ)
  | [] => none
  | x :: xs =>
    match firstMax xs with
    | none => some x
    | some m => if m.2 ≤ x.2 then some x else some m

theorem firstMax_eq_none_iff {α : Type} (l : List (Agent α × ℚ)) :
    firstMax l = none ↔ l = [] := by
  cases l with
  | nil => simp [firstMax]
  | cons x xs =>
    simp only [firstMax]
    cases h : firstMax xs with
    | none => simp
    | some m =>
      constructor
      · intro hc
        by_cases hle : m.2 ≤ x.2 <;> simp [hle] at hc
      · intro hc
        exact absurd hc (by simp)

theorem sortByConfDesc_eq_nil_iff {α : Type} (l : List (Agent α × ℚ)) :
    sortByConfDesc l = [] ↔ l = [] := by
  cases l with
  | nil => simp [sortByConfDesc]
  | cons x xs =>
    simp only [sortByConfDesc]
    constructor
    · intro hc
      exfalso
      cases h : sortByConfDesc xs with
      | nil => rw [h] at hc; simp [insertDesc] at hc
      | cons y ys =>
        rw [h] at hc
        by_cases hle : y.2 ≤ x.2 <;> simp [insertDesc, hle] at hc
    · intro hc
      exact absurd hc (by simp)

theorem head?_insertDesc {α : Type} (x : Agent α × ℚ) (s : List (Agent α × ℚ)) :
    (insertDesc x s).head? =
      match s with
      | [] => some x
      | y :: _ => if y.2 ≤ x.2 then some x else some y := by
  cases s with
  | nil => simp [insertDesc]
  | cons y ys =>
    by_cases hle : y.2 ≤ x.2 <;> simp [insertDesc, hle]

/-- The head of the stable descending sort is the first element attaining
the maximal confidence. -/
theorem sortByConfDesc_head? {α : Type} (l : List (Agent α × ℚ)) :
    (sortByConfDesc l).head? = firstMax l := by
  induction l with
  | nil => simp [sortByConfDesc, firstMax]
  | cons x xs ih =>
    simp only [sortByConfDesc, firstMax, head?_insertDesc]
    cases hs : sortByConfDesc xs with
    | nil =>
      have hxs : xs = [] := (sortByConfDesc_eq_nil_iff xs).mp hs
      subst hxs
      simp [firstMax]
    | cons y ys =>
      have hy : firstMax xs = some y := by
        rw [← ih, hs]; rfl
      rw [hy]

/-- Characterisation of firstMax: it is an element of the list, every
element before it has strictly smaller confidence, and no element of the
list has larger confidence. -/
theorem firstMax_spec {α : Type} (l : List (Agent α × ℚ)) (x : Agent α × ℚ)
    (h : firstMax l = some x) :
    ∃ i, l.get? i = some x ∧
      (∀ j y, j < i → l.get? j = some y → y.2 < x.2) ∧
      (∀ y ∈ l, y.2 ≤ x.2) := by
  induction l generalizing x with
  | nil => simp [firstMax] at h
  | cons z zs ih =>
    rw [firstMax] at h
    cases hm : firstMax zs with
    | none =>
      rw [hm] at h
      simp at h
      subst h
      have hzs : zs = [] := (firstMax_eq_none_iff zs).mp hm
      subst hzs
      refine ⟨0, rfl, ?_, ?_⟩
      · intro j y hj
        exact absurd hj (Nat.not_lt_zero j)
      · intro y hy
        simp at hy
        subst hy
        exact le_refl _
    | some m =>
      rw [hm] at h
      simp only at h
      by_cases hle : m.2 ≤ z.2
      · rw [if_pos hle] at h
        injection h with h
        subst h
        refine ⟨0, rfl, ?_, ?_⟩
        · intro j y hj
          exact absurd hj (Nat.not_lt_zero j)
        · intro y hy
          rcases List.mem_cons.mp hy with hy | hy
          · subst hy; exact le_refl _
          · obtain ⟨_, _, _, hall⟩ := ih m hm
            exact le_trans (hall y hy) hle
      · rw [if_neg hle] at h
        injection h with h
        subst h
        obtain ⟨i, hi, hbefore, hall⟩ := ih m hm
        refine ⟨i + 1, by simpa using hi, ?_, ?_⟩
        · intro j y hj hget
          cases j with
          | zero =>
            simp at hget
            subst hget
            exact lt_of_not_le hle
          | succ j' =>
            rw [List.get?_cons_succ] at hget
            exact hbefore j' y (by omega) hget
        · intro y hy
          rcases List.mem_cons.mp hy with hy | hy
          · subst hy; exact le_of_lt (lt_of_not_le hle)
          · exact hall y hy

/-- Claim C1: route_message is total on every message, context and handler
set (it is a Lean function, so it never raises), always yielding a
RouteResult whose success field is a definite boolean; and whenever the
chosen top handler's execute raises e, the result is success:false with
response "Error executing agent: " ++ str(e). -/
theorem route_message_never_raises {α : Type} (agents : List (Agent α))
    (chat : List ChatMsg → Except String String) (msg : String) (ctx : Ctx) :
    ((route_message agents chat msg ctx).success = true ∨
      (route_message agents chat msg ctx).success = false) ∧
    (∀ best rest e,
      sortByConfDesc (claimedScores agents msg ctx) = best :: rest →
      best.1.execute msg ctx = .error e →
      route_message agents chat msg ctx =
        ⟨best.1.name, best.2, "Error executing agent: " ++ e, none, false, ["error"]⟩) := by
  constructor
  · cases (route_message agents chat msg ctx).success <;> simp
  · intro best rest e hsort hexec
    unfold route_message
    rw [hsort]
    show runAgent best.1 best.2 msg ctx = _
    unfold runAgent
    rw [hexec]

/-- Witness for C1: a concrete single-handler registry whose execute raises
"boom"; the route result is the converted error RouteResult. -/
theorem route_message_never_raises_witness :
    route_message [(⟨"Bad", fun _ _ => (true, 0.9), fun _ _ => Except.error "boom"⟩ : Agent Unit)]
      (fun _ => Except.ok "ok") "hello" ⟨"u", 0⟩ =
      ⟨"Bad", 0.9, "Error executing agent: " ++ "boom", none, false, ["error"]⟩ := by
  exact (route_message_never_raises
    [(⟨"Bad", fun _ _ => (true, 0.9), fun _ _ => Except.error "boom"⟩ : Agent Unit)]
    (fun _ => Except.ok "ok") "hello" ⟨"u", 0⟩).2
    (⟨"Bad", fun _ _ => (true, 0.9), fun _ _ => Except.error "boom"⟩, 0.9) [] "boom" rfl rfl

/-- Claim C3: when at least two handlers claim a message, route_message
executes the claimant with strictly highest confidence, and on exact
confidence ties the handler registered earlier: the executed claimant best
sits at an index i of the registration-ordered claimant list such that every
earlier claimant has strictly smaller confidence and no claimant at all has
larger confidence. -/
theorem route_message_executes_highest_confidence {α : Type}
    (agents : List (Agent α)) (chat : List ChatMsg → Except String String)
    (msg : String) (ctx : Ctx)
    (htwo : 2 ≤ (claimedScores agents msg ctx).length) :
    ∃ best i,
      route_message agents chat msg ctx = runAgent best.1 best.2 msg ctx ∧
      (claimedScores agents msg ctx).get? i = some best ∧
      (∀ j y, j < i → (claimedScores agents msg ctx).get? j = some y → y.2 < best.2) ∧
      (∀ y ∈ claimedScores agents msg ctx, y.2 ≤ best.2) := by
  set cs := claimedScores agents msg ctx with hcs
  have hne : cs ≠ [] := by
    intro hnil
    rw [hnil] at htwo
    simp at htwo
  cases hfm : firstMax cs with
  | none => exact absurd ((firstMax_eq_none_iff cs).mp hfm) hne
  | some best =>
    obtain ⟨i, hi, hbefore, hall⟩ := firstMax_spec cs best hfm
    refine ⟨best, i, ?_, hi, hbefore, hall⟩
    have hhead : (sortByConfDesc cs).head? = some best := by
      rw [sortByConfDesc_head?, hfm]
    cases hsort : sortByConfDesc cs with
    | nil => rw [hsort] at hhead; simp at hhead
    | cons b rest =>
      rw [hsort] at hhead
      simp at hhead
      subst hhead
      unfold route_message
      rw [← hcs, hsort]

/-- Witness for C3: two stub handlers both claiming with confidence 0.7;
the first-registered one is executed. -/
theorem route_message_executes_highest_confidence_witness :
    2 ≤ (claimedScores
      [(⟨"First", fun _ _ => (true, 0.7), fun _ _ => Except.ok ⟨true, "a", none, []⟩⟩ : Agent Unit),
       ⟨"Second", fun _ _ => (true, 0.7), fun _ _ => Except.ok ⟨true, "b", none, []⟩⟩]
      "hi" ⟨"u", 0⟩).length ∧
    ∃ best i,
      route_message
        [(⟨"First", fun _ _ => (true, 0.7), fun _ _ => Except.ok ⟨true, "a", none, []⟩⟩ : Agent Unit),
         ⟨"Second", fun _ _ => (true, 0.7), fun _ _ => Except.ok ⟨true, "b", none, []⟩⟩]
        (fun _ => Except.error "no llm") "hi" ⟨"u", 0⟩ = runAgent best.1 best.2 "hi" ⟨"u", 0⟩ ∧
      (claimedScores
        [(⟨"First", fun _ _ => (true, 0.7), fun _ _ => Except.ok ⟨true, "a", none, []⟩⟩ : Agent Unit),
         ⟨"Second", fun _ _ => (true, 0.7), fun _ _ => Except.ok ⟨true, "b", none, []⟩⟩]
        "hi" ⟨"u", 0⟩).get? i = some best ∧
      (∀ j y, j < i →
        (claimedScores
          [(⟨"First", fun _ _ => (true, 0.7), fun _ _ => Except.ok ⟨true, "a", none, []⟩⟩ : Agent Unit),
           ⟨"Second", fun _ _ => (true, 0.7), fun _ _ => Except.ok ⟨true, "b", none, []⟩⟩]
          "hi" ⟨"u", 0⟩).get? j = some y → y.2 < best.2) ∧
      (∀ y ∈ claimedScores
          [(⟨"First", fun _ _ => (true, 0.7), fun _ _ => Except.ok ⟨true, "a", none, []⟩⟩ : Agent Unit),
           ⟨"Second", fun _ _ => (true, 0.7), fun _ _ => Except.ok ⟨true, "b", none, []⟩⟩]
          "hi" ⟨"u", 0⟩, y.2 ≤ best.2) := by
  refine ⟨by decide, ?_⟩
  exact route_message_executes_highest_confidence _ _ "hi" ⟨"u", 0⟩ (by decide)

/-- Claim C9 (amended): when no handler claims the message, route_message
invokes the generic-completion fallback with the fixed role preamble and the
raw user text; on success the RouteResult carries confidence 0.3; if the
fallback call itself fails, the result has success false, a response
beginning "Sorry, I encountered an error: ", and confidence 0.0 (the code
resets the confidence to 0.0 in the failure branch, not 0.3). -/
theorem route_message_fallback_behavior {α : Type} (agents : List (Agent α))
    (chat : List ChatMsg → Except String String) (msg : String) (ctx : Ctx)
    (hnone : claimedScores agents msg ctx = []) :
    route_message agents chat msg ctx = fallback_llm_response chat msg ∧
    (∀ r, chat [⟨"system", fallbackSystemPrompt⟩, ⟨"user", msg⟩] = .ok r →
      route_message agents chat msg ctx =
        ⟨"GeneralLLM", 0.3, r, none, true, ["general_chat"]⟩) ∧
    (∀ e, chat [⟨"system", fallbackSystemPrompt⟩, ⟨"user", msg⟩] = .error e →
      route_message agents chat msg ctx =
        ⟨"GeneralLLM", 0.0, "Sorry, I encountered an error: " ++ e, none, false, ["error"]⟩) := by
  have hroute : route_message agents chat msg ctx = fallback_llm_response chat msg := by
    unfold route_message
    rw [hnone]
    rfl
  refine ⟨hroute, ?_, ?_⟩
  · intro r hr
    rw [hroute]
    unfold fallback_llm_response
    rw [hr]
  · intro e he
    rw [hroute]
    unfold fallback_llm_response
    rw [he]

/-- Witness for C9 (amended): with no handlers and a succeeding completion
stub, the fallback result carries confidence 0.3. -/
theorem route_message_fallback_behavior_witness :
    route_message ([] : List (Agent Unit)) (fun _ => Except.ok "resp") "hi" ⟨"u", 0⟩ =
      ⟨"GeneralLLM", 0.3, "resp", none, true, ["general_chat"]⟩ := by
  exact (route_message_fallback_behavior ([] : List (Agent Unit))
    (fun _ => Except.ok "resp") "hi" ⟨"u", 0⟩ rfl).2.1 "resp" rfl

/-- Counterexample to claim C9 as stated: with no registered handlers and a
failing completion endpoint, the returned RouteResult carries confidence
0.0, not the claimed fixed fallback confidence 0.3. -/
theorem route_message_fallback_confidence_counterexample :
    (route_message ([] : List (Agent Unit)) (fun _ => Except.error "connection refused")
      "hello" ⟨"u", 0⟩).confidence = 0 ∧
    (route_message ([] : List (Agent Unit)) (fun _ => Except.error "connection refused")
      "hello" ⟨"u", 0⟩).confidence ≠ 0.3 ∧
    (route_message ([] : List (Agent Unit)) (fun _ => Except.error "connection refused")
      "hello" ⟨"u", 0⟩).success = false := by
  have h : route_message ([] : List (Agent Unit)) (fun _ => Except.error "connection refused")
      "hello" ⟨"u", 0⟩ =
      ⟨"GeneralLLM", 0.0, "Sorry, I encountered an error: " ++ "connection refused",
        none, false, ["error"]⟩ := rfl
  rw [h]
  norm_num

/-!
Embedding of the message persistence and pairing layer (app.py).  The
Message table is a list of rows; SELECT ... ORDER BY id LIMIT 1 is the
minimal-id element among the rows matching the WHERE clause.  A handler
returning Except.error models `raise HTTPException` — the raise happens
before any session mutation or broadcast, so an error leaves the store
unchanged and emits no event.  The returned event list is the sequence of
manager.broadcast calls, in program order.
-/

/-- A row of the users table (the fields read by edit/delete). -/
structure ChatUser where
  id : Nat
  username : String
deriving DecidableEq

/-- A row of the messages table. -/
structure Message where
  id : Nat
  user_id : Option Nat
  content : String
  is_bot : Bool
deriving DecidableEq

/-- The broadcast payloads emitted by edit_message / delete_single_message. -/
inductive BroadcastEvent
  | message_edited (id : Nat) (username : String) (content : String) (is_bot : Bool)
  | message_deleted (message_id : Nat)
deriving DecidableEq

/-- An HTTPException: status code and detail string. -/
structure HttpError where
  status : Nat
  detail : String
deriving DecidableEq

/-- session.get(Message, message_id). -/
def getMessage (store : List Message) (mid : Nat) : Option Message :=
  store.find? (fun m => m.id == mid)

/-- select(User).where(User.username == username), scalar_one_or_none. -/
def findUser (users : List ChatUser) (username : String) : Option ChatUser :=
  users.find? (fun u => u.username == username)

/-- The row with minimal id (ORDER BY id LIMIT 1 over a result set). -/
def minIdMsg : List Message → Option Message
  | [] => none
  | m :: rest =>
    match minIdMsg rest with
    | none => some m
    | some b => if b.id ≤ m.id then some b else some m

/-- select(Message).where(Message.id > mid, Message.is_bot == True)
.order_by(Message.id).limit(1): the nearest bot message after mid. -/
def firstBotAfter (store : List Message) (mid : Nat) : Option Message :=
  minIdMsg (store.filter (fun m => decide (mid < m.id) && m.is_bot))

/-- select(Message).where(mid < id, id < bid, is_bot == False): whether a
user message sits strictly between mid and bid. -/
def userBetweenExists (store : List Message) (mid bid : Nat) : Bool :=
  store.any (fun m => decide (mid < m.id) && decide (m.id < bid) && !m.is_bot)

/-- The positional pairing scan shared verbatim by edit_message and
delete_single_message: the nearest bot message after mid is paired iff no
user message lies strictly in between. -/
def pairedBotId (store : List Message) (mid : Nat) : Option Nat :=
  match firstBotAfter store mid with
  | some nb => if userBetweenExists store mid nb.id then none else some nb.id
  | none => none

/-- PUT /api/messages/{message_id} (edit_message): authorize, delete the
paired bot reply if one exists, apply the new content, and broadcast the
edit event followed by the bot-deletion event (the code broadcasts the edit
first, then the deletion of the bot message). -/
def edit_message (store : List Message) (users : List ChatUser) (username : String)
    (messageId : Nat) (newContent : String) :
    Except HttpError (List Message × List BroadcastEvent) :=
  match findUser users username with
  | none => .error ⟨401, "Invalid user"⟩
  | some u =>
    match getMessage store messageId with
    | none => .error ⟨404, "Message not found"⟩
    | some msg =>
      if msg.is_bot = true ∨ msg.user_id ≠ some u.id then
        .error ⟨403, "You can only edit your own messages"⟩
      else
        let botDeletedId : Option Nat := pairedBotId store messageId
        let store1 : List Message :=
          match botDeletedId with
          | some bid => store.filter (fun m => m.id != bid)
          | none => store
        let store2 : List Message := store1.map
          (fun m => if m.id = messageId then { m with content := newContent } else m)
        let events : List BroadcastEvent :=
          [BroadcastEvent.message_edited messageId username newContent false] ++
          (match botDeletedId with
           | some bid => [BroadcastEvent.message_deleted bid]
           | none => [])
        .ok (store2, events)

/-- DELETE /api/messages/{message_id} (delete_single_message): authorize,
delete the paired bot reply if one exists, delete the user message, and
broadcast the user-message deletion followed by the bot-message deletion. -/
def delete_single_message (store : List Message) (users : List ChatUser)
    (username : String) (messageId : Nat) :
    Except HttpError (List Message × List BroadcastEvent) :=
  match findUser users username with
  | none => .error ⟨401, "Invalid user"⟩
  | some u =>
    match getMessage store messageId with
    | none => .error ⟨404, "Message not found"⟩
    | some msg =>
      if msg.is_bot = true ∨ msg.user_id ≠ some u.id then
        .error ⟨403, "You can only delete your own messages"⟩
      else
        let botDeletedId : Option Nat := pairedBotId store messageId
        let store1 : List Message :=
          match botDeletedId with
          | some bid => store.filter (fun m => m.id != bid)
          | none => store
        let store2 : List Message := store1.filter (fun m => m.id != messageId)
        let events : List BroadcastEvent :=
          [BroadcastEvent.message_deleted messageId] ++
          (match botDeletedId with
           | some bid => [BroadcastEvent.message_deleted bid]
           | none => [])
        .ok (store2, events)

theorem minIdMsg_mem {l : List Message} {b : Message} (h : minIdMsg l = some b) :
    b ∈ l := by
  induction l with
  | nil => simp [minIdMsg] at h
  | cons m rest ih =>
    rw [minIdMsg] at h
    cases hr : minIdMsg rest with
    | none =>
      rw [hr] at h
      simp at h
      subst h
      exact List.mem_cons_self _ _
    | some b' =>
      rw [hr] at h
      simp only at h
      by_cases hle : b'.id ≤ m.id
      · rw [if_pos hle] at h
        injection h with h
        subst h
        exact List.mem_cons_of_mem _ (ih hr)
      · rw [if_neg hle] at h
        injection h with h
        subst h
        exact List.mem_cons_self _ _

theorem minIdMsg_eq_of_strict_min {l : List Message} {B : Message} (hB : B ∈ l)
    (hmin : ∀ m ∈ l, m ≠ B → B.id < m.id) : minIdMsg l = some B := by
  induction l with
  | nil => simp at hB
  | cons m rest ih =>
    rcases List.mem_cons.mp hB with hB | hB
    · subst hB
      rw [minIdMsg]
      cases hr : minIdMsg rest with
      | none => rfl
      | some b =>
        have hbmem : b ∈ rest := minIdMsg_mem hr
        show (if b.id ≤ B.id then some b else some B) = some B
        by_cases hbB : b = B
        · subst hbB
          simp
        · have hlt : B.id < b.id := hmin b (List.mem_cons_of_mem _ hbmem) hbB
          rw [if_neg (by omega)]
    · rw [minIdMsg, ih hB (fun m' hm' => hmin m' (List.mem_cons_of_mem _ hm'))]
      show (if B.id ≤ m.id then some B else some m) = some B
      have hBm : B.id ≤ m.id := by
        by_cases hmB : m = B
        · subst hmB; exact le_refl _
        · exact le_of_lt (hmin m (List.mem_cons_self _ _) hmB)
      rw [if_pos hBm]

theorem firstBotAfter_is_match {store : List Message} {mid : Nat} {nb : Message}
    (h : firstBotAfter store mid = some nb) :
    nb ∈ store ∧ mid < nb.id ∧ nb.is_bot = true := by
  have hm := minIdMsg_mem h
  rw [List.mem_filter] at hm
  obtain ⟨hmem, hpred⟩ := hm
  simp at hpred
  exact ⟨hmem, hpred.1, hpred.2⟩

theorem firstBotAfter_paired {store : List Message} {mid : Nat} {B : Message}
    (hBmem : B ∈ store) (hBbot : B.is_bot = true) (hBgt : mid < B.id)
    (hnear : ∀ m ∈ store, m.is_bot = true → mid < m.id → B.id ≤ m.id)
    (hnodup : (store.map Message.id).Nodup) :
    firstBotAfter store mid = some B := by
  apply minIdMsg_eq_of_strict_min
  · rw [List.mem_filter]
    refine ⟨hBmem, ?_⟩
    simp [hBgt, hBbot]
  · intro m hm hne
    rw [List.mem_filter] at hm
    obtain ⟨hmem, hpred⟩ := hm
    simp at hpred
    have hle : B.id ≤ m.id := hnear m hmem hpred.2 hpred.1
    have hid : B.id ≠ m.id := by
      intro hideq
      exact hne (List.inj_on_of_nodup_map hnodup hmem hBmem hideq.symm)
    omega

theorem pairedBotId_of_paired {store : List Message} {mid : Nat} {B : Message}
    (hBmem : B ∈ store) (hBbot : B.is_bot = true) (hBgt : mid < B.id)
    (hnear : ∀ m ∈ store, m.is_bot = true → mid < m.id → B.id ≤ m.id)
    (hbetween : ∀ m ∈ store, mid < m.id → m.id < B.id → m.is_bot = true)
    (hnodup : (store.map Message.id).Nodup) :
    pairedBotId store mid = some B.id := by
  unfold pairedBotId
  rw [firstBotAfter_paired hBmem hBbot hBgt hnear hnodup]
  have hfalse : userBetweenExists store mid B.id = false := by
    rw [userBetweenExists]
    rw [List.any_eq_false]
    intro m hm
    intro hpred
    simp only [Bool.and_eq_true, Bool.not_eq_true', decide_eq_true_eq] at hpred
    obtain ⟨⟨h1, h2⟩, h3⟩ := hpred
    have := hbetween m hm h1 h2
    rw [this] at h3
    cases h3
  show (if userBetweenExists store mid B.id = true then none else some B.id) = some B.id
  rw [hfalse]
  simp

/-- When pairedBotId finds a bot to delete, its id is strictly greater than
the edited or deleted message's id. -/
theorem pairedBotId_gt {store : List Message} {mid bid : Nat}
    (h : pairedBotId store mid = some bid) : mid < bid := by
  unfold pairedBotId at h
  cases hf : firstBotAfter store mid with
  | none => rw [hf] at h; simp at h
  | some nb =>
    rw [hf] at h
    simp only at h
    by_cases hb : userBetweenExists store mid nb.id = true
    · rw [if_pos hb] at h; simp at h
    · rw [if_neg hb] at h
      injection h with h
      subst h
      exact (firstBotAfter_is_match hf).2.1

/-- Shared authorized-edit computation: with a paired bot message B, the
edit deletes B, rewrites the target content, and broadcasts the edit event
followed by the bot-deletion event. -/
theorem edit_message_paired {store : List Message} {users : List ChatUser}
    {username : String} {u : ChatUser} {aid : Nat} {A B : Message} (c : String)
    (hu : findUser users username = some u)
    (hA : getMessage store aid = some A)
    (hAbot : A.is_bot = false) (hAown : A.user_id = some u.id)
    (hBmem : B ∈ store) (hBbot : B.is_bot = true) (hBgt : aid < B.id)
    (hnear : ∀ m ∈ store, m.is_bot = true → aid < m.id → B.id ≤ m.id)
    (hbetween : ∀ m ∈ store, aid < m.id → m.id < B.id → m.is_bot = true)
    (hnodup : (store.map Message.id).Nodup) :
    edit_message store users username aid c =
      .ok ((store.filter (fun m => m.id != B.id)).map
            (fun m => if m.id = aid then { m with content := c } else m),
        [BroadcastEvent.message_edited aid username c false,
         BroadcastEvent.message_deleted B.id]) := by
  have hp := pairedBotId_of_paired hBmem hBbot hBgt hnear hbetween hnodup
  simp only [edit_message, hu, hA, hp, hAbot, hAown]
  rw [if_neg (by simp)]
  rfl

/-- Shared authorized-delete computation: with a paired bot message B, the
delete removes both the target and B, broadcasting the user-message deletion
first and then the bot-message deletion. -/
theorem delete_message_paired {store : List Message} {users : List ChatUser}
    {username : String} {u : ChatUser} {aid : Nat} {A B : Message}
    (hu : findUser users username = some u)
    (hA : getMessage store aid = some A)
    (hAbot : A.is_bot = false) (hAown : A.user_id = some u.id)
    (hBmem : B ∈ store) (hBbot : B.is_bot = true) (hBgt : aid < B.id)
    (hnear : ∀ m ∈ store, m.is_bot = true → aid < m.id → B.id ≤ m.id)
    (hbetween : ∀ m ∈ store, aid < m.id → m.id < B.id → m.is_bot = true)
    (hnodup : (store.map Message.id).Nodup) :
    delete_single_message store users username aid =
      .ok (((store.filter (fun m => m.id != B.id)).filter (fun m => m.id != aid)),
        [BroadcastEvent.message_deleted aid, BroadcastEvent.message_deleted B.id]) := by
  have hp := pairedBotId_of_paired hBmem hBbot hBgt hnear hbetween hnodup
  simp only [delete_single_message, hu, hA, hp, hAbot, hAown]
  rw [if_neg (by simp)]
  rfl

/-- Any bot message older than the edited message survives an edit. -/
theorem edit_preserves_older_bots {store store' : List Message} {users : List ChatUser}
    {username : String} {tid : Nat} {c : String} {evs : List BroadcastEvent}
    (hok : edit_message store users username tid c = .ok (store', evs))
    {m : Message} (hm : m ∈ store) (hlt : m.id < tid) : m ∈ store' := by
  unfold edit_message at hok
  cases hu : findUser users username with
  | none => rw [hu] at hok; simp at hok
  | some u =>
    rw [hu] at hok
    simp only at hok
    cases hA : getMessage store tid with
    | none => rw [hA] at hok; simp at hok
    | some msg =>
      rw [hA] at hok
      simp only at hok
      by_cases hauth : msg.is_bot = true ∨ msg.user_id ≠ some u.id
      · rw [if_pos hauth] at hok; simp at hok
      · rw [if_neg hauth] at hok
        simp only [Except.ok.injEq, Prod.mk.injEq] at hok
        obtain ⟨hst, _⟩ := hok
        subst hst
        apply List.mem_map.mpr
        refine ⟨m, ?_, ?_⟩
        · cases hp : pairedBotId store tid with
          | none => simpa [hp] using hm
          | some bid =>
            have hgt := pairedBotId_gt hp
            simp only [hp]
            rw [List.mem_filter]
            refine ⟨hm, ?_⟩
            simp only [bne_iff_ne, ne_eq, decide_eq_true_eq]
            omega
        · rw [if_neg (by omega)]

/-- Any bot message older than the deleted message survives a delete. -/
theorem delete_preserves_older_bots {store store' : List Message} {users : List ChatUser}
    {username : String} {tid : Nat} {evs : List BroadcastEvent}
    (hok : delete_single_message store users username tid = .ok (store', evs))
    {m : Message} (hm : m ∈ store) (hlt : m.id < tid) : m ∈ store' := by
  unfold delete_single_message at hok
  cases hu : findUser users username with
  | none => rw [hu] at hok; simp at hok
  | some u =>
    rw [hu] at hok
    simp only at hok
    cases hA : getMessage store tid with
    | none => rw [hA] at hok; simp at hok
    | some msg =>
      rw [hA] at hok
      simp only at hok
      by_cases hauth : msg.is_bot = true ∨ msg.user_id ≠ some u.id
      · rw [if_pos hauth] at hok; simp at hok
      · rw [if_neg hauth] at hok
        simp only [Except.ok.injEq, Prod.mk.injEq] at hok
        obtain ⟨hst, _⟩ := hok
        subst hst
        rw [List.mem_filter]
        refine ⟨?_, by simp only [bne_iff_ne, ne_eq, decide_eq_true_eq]; omega⟩
        cases hp : pairedBotId store tid with
        | none => simpa [hp] using hm
        | some bid =>
          have hgt := pairedBotId_gt hp
          simp only [hp]
          rw [List.mem_filter]
          refine ⟨hm, ?_⟩
          simp only [bne_iff_ne, ne_eq, decide_eq_true_eq]
          omega

/-- Claim C2: in a stored conversation where user message A is immediately
followed (in the positional-pairing sense) by bot message B, an authorized
edit of A deletes B and persists the new content of A, an authorized delete
of A deletes both A and B, and a bot message whose id is smaller than a
later user message's id is never deleted by editing or deleting that later
message. -/
theorem pairing_cascade_on_edit_and_delete {store : List Message}
    {users : List ChatUser} {username : String} {u : ChatUser} {aid : Nat}
    {A B : Message} (c : String)
    (hu : findUser users username = some u)
    (hA : getMessage store aid = some A)
    (hAbot : A.is_bot = false) (hAown : A.user_id = some u.id)
    (hBmem : B ∈ store) (hBbot : B.is_bot = true) (hBgt : aid < B.id)
    (hnear : ∀ m ∈ store, m.is_bot = true → aid < m.id → B.id ≤ m.id)
    (hbetween : ∀ m ∈ store, aid < m.id → m.id < B.id → m.is_bot = true)
    (hnodup : (store.map Message.id).Nodup) :
    edit_message store users username aid c =
      .ok ((store.filter (fun m => m.id != B.id)).map
            (fun m => if m.id = aid then { m with content := c } else m),
        [BroadcastEvent.message_edited aid username c false,
         BroadcastEvent.message_deleted B.id]) ∧
    delete_single_message store users username aid =
      .ok (((store.filter (fun m => m.id != B.id)).filter (fun m => m.id != aid)),
        [BroadcastEvent.message_deleted aid, BroadcastEvent.message_deleted B.id]) ∧
    (∀ (store₂ store' : List Message) (users₂ : List ChatUser) (uname : String)
      (tid : Nat) (c' : String) (evs : List BroadcastEvent) (m : Message),
      edit_message store₂ users₂ uname tid c' = .ok (store', evs) →
      m ∈ store₂ → m.id < tid → m ∈ store') ∧
    (∀ (store₂ store' : List Message) (users₂ : List ChatUser) (uname : String)
      (tid : Nat) (evs : List BroadcastEvent) (m : Message),
      delete_single_message store₂ users₂ uname tid = .ok (store', evs) →
      m ∈ store₂ → m.id < tid → m ∈ store') := by
  refine ⟨edit_message_paired c hu hA hAbot hAown hBmem hBbot hBgt hnear hbetween hnodup,
    delete_message_paired hu hA hAbot hAown hBmem hBbot hBgt hnear hbetween hnodup,
    ?_, ?_⟩
  · intro store₂ store' users₂ uname tid c' evs m hok hm hlt
    exact edit_preserves_older_bots hok hm hlt
  · intro store₂ store' users₂ uname tid evs m hok hm hlt
    exact delete_preserves_older_bots hok hm hlt

/-- Witness for C2: the spec scenario — user message 10 by alice, paired bot
message 11; editing 10 deletes 11 and rewrites the content, deleting 10
removes both rows. -/
theorem pairing_cascade_witness :
    edit_message [⟨10, some 1, "#q", false⟩, ⟨11, none, "a", true⟩]
      [⟨1, "alice"⟩] "alice" 10 "hello" =
      .ok ([⟨10, some 1, "hello", false⟩],
        [BroadcastEvent.message_edited 10 "alice" "hello" false,
         BroadcastEvent.message_deleted 11]) ∧
    delete_single_message [⟨10, some 1, "#q", false⟩, ⟨11, none, "a", true⟩]
      [⟨1, "alice"⟩] "alice" 10 =
      .ok ([], [BroadcastEvent.message_deleted 10, BroadcastEvent.message_deleted 11]) := by
  have h := @pairing_cascade_on_edit_and_delete
    [⟨10, some 1, "#q", false⟩, ⟨11, none, "a", true⟩] [⟨1, "alice"⟩] "alice"
    ⟨1, "alice"⟩ 10 ⟨10, some 1, "#q", false⟩ ⟨11, none, "a", true⟩ "hello"
    rfl rfl rfl rfl (by decide) rfl (by decide) (by decide) (by decide) (by decide)
  exact ⟨h.1.trans rfl, h.2.1.trans rfl⟩

/-- Claim C8 (amended): for an authorized edit of a user message that has a
paired bot message, the code broadcasts the edit event for the user message
first and the deletion event for the paired bot message second — the
opposite of the claimed order. -/
theorem edit_broadcasts_edit_before_deletion {store : List Message}
    {users : List ChatUser} {username : String} {u : ChatUser} {aid : Nat}
    {A B : Message} (c : String)
    (hu : findUser users username = some u)
    (hA : getMessage store aid = some A)
    (hAbot : A.is_bot = false) (hAown : A.user_id = some u.id)
    (hBmem : B ∈ store) (hBbot : B.is_bot = true) (hBgt : aid < B.id)
    (hnear : ∀ m ∈ store, m.is_bot = true → aid < m.id → B.id ≤ m.id)
    (hbetween : ∀ m ∈ store, aid < m.id → m.id < B.id → m.is_bot = true)
    (hnodup : (store.map Message.id).Nodup) :
    ∃ store', edit_message store users username aid c =
      .ok (store',
        [BroadcastEvent.message_edited aid username c false,
         BroadcastEvent.message_deleted B.id]) := by
  exact ⟨_, edit_message_paired c hu hA hAbot hAown hBmem hBbot hBgt hnear hbetween hnodup⟩

/-- Witness for C8 (amended): concrete paired conversation; the emitted
sequence is edit first, deletion second. -/
theorem edit_broadcasts_edit_before_deletion_witness :
    ∃ store', edit_message [⟨10, some 1, "#q", false⟩, ⟨11, none, "a", true⟩]
      [⟨1, "alice"⟩] "alice" 10 "hello" =
      .ok (store',
        [BroadcastEvent.message_edited 10 "alice" "hello" false,
         BroadcastEvent.message_deleted 11]) := by
  exact edit_broadcasts_edit_before_deletion (A := ⟨10, some 1, "#q", false⟩)
    (B := ⟨11, none, "a", true⟩) (u := ⟨1, "alice"⟩) "hello"
    rfl rfl rfl rfl (by decide) rfl (by decide) (by decide) (by decide) (by decide)

/-- Counterexample to claim C8 as stated: at a concrete paired conversation
the edit endpoint emits the edit event first; the first broadcast is not the
bot-message deletion, refuting "the deletion event is broadcast before the
edit event". -/
theorem edit_broadcast_order_counterexample :
    edit_message [⟨10, some 1, "#q", false⟩, ⟨11, none, "a", true⟩]
      [⟨1, "alice"⟩] "alice" 10 "hello" =
      .ok ([⟨10, some 1, "hello", false⟩],
        [BroadcastEvent.message_edited 10 "alice" "hello" false,
         BroadcastEvent.message_deleted 11]) ∧
    ([BroadcastEvent.message_edited 10 "alice" "hello" false,
      BroadcastEvent.message_deleted 11].head? ≠
        some (BroadcastEvent.message_deleted 11)) := by
  exact ⟨rfl, by decide⟩

/-- Claim C10: an edit or delete whose target message id does not exist in
the store is rejected with a 404 "Message not found" error; the Except.error
return models a raise that happens before any mutation or broadcast, so the
store is unchanged and no event is emitted. -/
theorem missing_message_rejected {store : List Message} {users : List ChatUser}
    {username : String} {u : ChatUser} {mid : Nat} (c : String)
    (hu : findUser users username = some u)
    (hmiss : getMessage store mid = none) :
    edit_message store users username mid c = .error ⟨404, "Message not found"⟩ ∧
    delete_single_message store users username mid = .error ⟨404, "Message not found"⟩ := by
  constructor
  · unfold edit_message
    rw [hu, hmiss]
  · unfold delete_single_message
    rw [hu, hmiss]

/-- Witness for C10: a store holding only message 10; editing or deleting
message 99 is rejected with a 404. -/
theorem missing_message_rejected_witness :
    edit_message [⟨10, some 1, "q", false⟩] [⟨1, "alice"⟩] "alice" 99 "x" =
      .error ⟨404, "Message not found"⟩ ∧
    delete_single_message [⟨10, some 1, "q", false⟩] [⟨1, "alice"⟩] "alice" 99 =
      .error ⟨404, "Message not found"⟩ := by
  exact missing_message_rejected (u := ⟨1, "alice"⟩) "x" rfl rfl

/-!
String utilities shared by the agents.  Python string containment
(`term in text`), lower-casing, stripping and a small regular-expression
engine covering exactly the constructs used by the inventory agent's
high-confidence patterns: literals, alternations of literals, `.`
(not matching a newline), `\d`, and the `*` / `+` quantifiers over those
single-character atoms.  `re.search` is existence of a match at some start
position, which for a boolean result does not depend on Python's
backtracking preferences.
-/

/-- message.lower() as a character list (ASCII lower-casing). -/
def lowerList (s : String) : List Char := s.toList.map Char.toLower

/-- str.strip(): remove leading and trailing whitespace. -/
def pyStripChars (l : List Char) : List Char :=
  ((l.dropWhile Char.isWhitespace).reverse.dropWhile Char.isWhitespace).reverse

/-- str.lstrip('#'). -/
def lstripHash (l : List Char) : List Char := l.dropWhile (fun c => c == '#')

/-- user_message.lower().strip().lstrip('#').strip(), the normalisation the
inventory agent applies before classifying. -/
def normalizeMsg (s : String) : List Char :=
  pyStripChars (lstripHash (pyStripChars (lowerList s)))

/-- Python `needle in hay` on strings: substring containment. -/
def isSubList (needle : List Char) : List Char → Bool
  | [] => needle.isEmpty
  | h :: t => needle.isPrefixOf (h :: t) || isSubList needle t

/-- any(term in hay for term in terms). -/
def containsAnySub (terms : List String) (hay : List Char) : Bool :=
  terms.any (fun t => isSubList t.toList hay)

theorem isSubList_iff_isInfixOf (needle hay : List Char) :
    isSubList needle hay = true ↔ needle <:+: hay := by
  induction hay with
  | nil => simp [isSubList]
  | cons h t ih =>
    simp only [isSubList, Bool.or_eq_true, List.isPrefixOf_iff_prefix, ih,
      List.infix_cons_iff]

theorem isSubList_trans {a b c : List Char} (hab : isSubList a b = true)
    (hbc : isSubList b c = true) : isSubList a c = true := by
  rw [isSubList_iff_isInfixOf] at *
  exact hab.trans hbc

theorem isSubList_refl (a : List Char) : isSubList a a = true := by
  rw [isSubList_iff_isInfixOf]

/-- Dropping a predicate-satisfying prefix preserves an infix occurrence of
a needle containing no character satisfying the predicate. -/
theorem infix_dropWhile_of_no_strip {needle l : List Char} {p : Char → Bool}
    (hne : needle ≠ []) (hnp : ∀ c ∈ needle, p c = false)
    (h : needle <:+: l) : needle <:+: l.dropWhile p := by
  obtain ⟨u, v, rfl⟩ := h
  rw [List.append_assoc, List.dropWhile_append]
  by_cases hu : (u.dropWhile p).isEmpty
  · rw [if_pos hu]
    cases hn : needle with
    | nil => exact absurd hn hne
    | cons n0 nt =>
      have hn0 : p n0 = false := hnp n0 (by rw [hn]; exact List.mem_cons_self _ _)
      have hstep : List.dropWhile p (n0 :: (nt ++ v)) = n0 :: (nt ++ v) := by
        rw [List.dropWhile_cons_of_neg]
        simp [hn0]
      rw [List.cons_append, hstep]
      exact ⟨[], v, rfl⟩
  · rw [if_neg hu]
    exact ⟨u.dropWhile p, v, by rw [List.append_assoc]⟩

/-- pyStripChars preserves an infix occurrence of a whitespace-free needle. -/
theorem infix_pyStrip_of_no_ws {needle l : List Char}
    (hne : needle ≠ []) (hnp : ∀ c ∈ needle, c.isWhitespace = false)
    (h : needle <:+: l) : needle <:+: pyStripChars l := by
  unfold pyStripChars
  have h1 : needle <:+: l.dropWhile Char.isWhitespace :=
    infix_dropWhile_of_no_strip hne hnp h
  have h2 : needle.reverse <:+: (l.dropWhile Char.isWhitespace).reverse :=
    List.reverse_infix.mpr h1
  have h3 : needle.reverse <:+:
      ((l.dropWhile Char.isWhitespace).reverse.dropWhile Char.isWhitespace) := by
    apply infix_dropWhile_of_no_strip (by simpa using hne) _ h2
    intro c hc
    exact hnp c (by simpa using hc)
  have := List.reverse_infix.mpr h3
  simpa using this

/-- lstripHash preserves an infix occurrence of a hash-free needle. -/
theorem infix_lstripHash_of_no_hash {needle l : List Char}
    (hne : needle ≠ []) (hnp : ∀ c ∈ needle, (c == '#') = false)
    (h : needle <:+: l) : needle <:+: lstripHash l :=
  infix_dropWhile_of_no_strip hne hnp h

/-- The normalised message is an infix of the lower-cased raw text. -/
theorem pyStripChars_isInfixOf (l : List Char) : pyStripChars l <:+: l := by
  unfold pyStripChars
  have h1 : l.dropWhile Char.isWhitespace <:+ l := List.dropWhile_suffix _
  have h2 : (l.dropWhile Char.isWhitespace).reverse.dropWhile Char.isWhitespace <:+
      (l.dropWhile Char.isWhitespace).reverse := List.dropWhile_suffix _
  have h3 : ((l.dropWhile Char.isWhitespace).reverse.dropWhile Char.isWhitespace).reverse <+:
      l.dropWhile Char.isWhitespace := by
    rw [← List.reverse_suffix]
    simpa using h2
  exact h3.isInfix.trans h1.isInfix

theorem normalizeMsg_infix_lower (s : String) : normalizeMsg s <:+: lowerList s := by
  have hhash : lstripHash (pyStripChars (lowerList s)) <:+ pyStripChars (lowerList s) :=
    List.dropWhile_suffix _
  calc normalizeMsg s
      <:+: lstripHash (pyStripChars (lowerList s)) := pyStripChars_isInfixOf _
    _ <:+: pyStripChars (lowerList s) := hhash.isInfix
    _ <:+: lowerList s := pyStripChars_isInfixOf _

/-- An infix occurrence of a whitespace- and hash-free needle in the
lower-cased text survives the agent's normalisation. -/
theorem infix_normalizeMsg_of_clean {needle : List Char} {s : String}
    (hne : needle ≠ [])
    (hws : ∀ c ∈ needle, c.isWhitespace = false)
    (hhash : ∀ c ∈ needle, (c == '#') = false)
    (h : needle <:+: lowerList s) : needle <:+: normalizeMsg s := by
  unfold normalizeMsg
  exact infix_pyStrip_of_no_ws hne hws
    (infix_lstripHash_of_no_hash hne hhash (infix_pyStrip_of_no_ws hne hws h))

/-- Single-character regex atoms: `.` (not matching newline) and `\d`. -/
inductive RAtom
  | any
  | digit

/-- Whether a character matches an atom. -/
def RAtom.matchesChar : RAtom → Char → Bool
  | .any, c => c != '\n'
  | .digit, c => c.isDigit

/-- The regex fragment used by the inventory agent's patterns: literals,
alternations of literals, `*` and `+` over single-character atoms, and
sequencing. -/
inductive Re
  | eps
  | lit (cs : List Char)
  | alt (ss : List (List Char))
  | star (a : RAtom)
  | plus (a : RAtom)
  | seq (r1 r2 : Re)

/-- Length of the maximal prefix of s whose characters all match a. -/
def runLen (a : RAtom) : List Char → Nat
  | [] => 0
  | c :: rest => if a.matchesChar c then runLen a rest + 1 else 0

/-- All lengths of prefixes of s matched by re (empty list: no match at this
position).  A boolean search needs existence only, so candidate order is
irrelevant. -/
def relens : Re → List Char → List Nat
  | .eps, _ => [0]
  | .lit cs, s => if cs.isPrefixOf s then [cs.length] else []
  | .alt ss, s => ss.filterMap (fun cs => if cs.isPrefixOf s then some cs.length else none)
  | .star a, s => List.range (runLen a s + 1)
  | .plus a, s => (List.range (runLen a s)).map (· + 1)
  | .seq r1 r2, s => (relens r1 s).flatMap (fun k => (relens r2 (s.drop k)).map (k + ·))

/-- re.search(pattern, s): a match exists at some start position. -/
def reSearch (re : Re) (s : List Char) : Bool :=
  (List.range (s.length + 1)).any (fun i => !(relens re (s.drop i)).isEmpty)

/-- A literal regex piece from a string. -/
def rlit (s : String) : Re := Re.lit s.toList

/-- An alternation group of literal words. -/
def ralts (ss : List String) : Re := Re.alt (ss.map String.toList)

/-- The `.*` regex piece. -/
def dotStar : Re := Re.star RAtom.any

/-- Sequencing of a list of regex pieces. -/
def rseq (rs : List Re) : Re := rs.foldr Re.seq Re.eps

/-- The lower-cased word what followed by an apostrophe and s. -/
def whats : String := "what" ++ String.mk [apos] ++ "s"

/-- InventoryAgent high_confidence_patterns, in source order. -/
def high_confidence_patterns : List Re :=
  [ rseq [ralts ["check", whats, "show", "get", "tell", "display", "list"], dotStar,
      ralts ["stock", "inventory", "supplies", "available", "items"]],
    rseq [ralts ["low on", "short on", "running low", "out of"], dotStar,
      ralts ["stock", "inventory", "supplies", "materials", "items"]],
    rseq [rlit "need ", ralts ["more", "to restock", "to reorder", "to order"]],
    rseq [rlit "how many ", dotStar, rlit " ", ralts ["do we have", "available", "in stock"]],
    rseq [ralts ["order", "purchase", "buy", "get more", "add", "new"], dotStar,
      ralts ["to", "in"], dotStar, ralts ["inventory", "stock"]],
    rseq [rlit "inventory ", ralts ["check", "status", "report", "list"]],
    rseq [ralts ["add", "new", "register"], dotStar, Re.plus RAtom.digit, dotStar,
      ralts ["to", "in"], dotStar, ralts ["inventory", "stock"]],
    rseq [rlit "#", dotStar, ralts ["stock", "inventory", "add", "check", "available"]],
    rseq [ralts ["pencils", "microscopes", "kits", "equipment", "materials", "supplies"],
      dotStar, ralts ["available", "stock", "inventory"]] ]

/-- InventoryAgent.keywords. -/
def inventory_keywords : List String :=
  ["inventory", "stock", "supplies", "materials", "items",
   "pencils", "chemistry set", "equipment", "tools",
   "low on", "need", "order", "shortage", "available",
   "check stock", "how many", "count", "quantity"]

/-- The lesson-domain cue list of the cross-domain guard. -/
def lesson_terms : List String :=
  ["lesson", "curriculum", "plan", "worksheet", "activity", "grade"]

/-- The strong inventory cues that let a lesson-flavoured message through. -/
def strong_inventory_terms : List String :=
  ["inventory", "stock", "supplies", "materials", "order", "restock"]

/-- The weak generic inventory cue list of the last classification stage. -/
def inventory_words : List String :=
  ["stock", "inventory", "supplies", "materials", "items", "available", "add", "check"]

/-- InventoryAgent.can_handle.  Confidence decimals 0.9 / 0.7 / 0.5 / 0.4 /
0.0 are written as exact rationals. -/
def inventory_can_handle (userMessage : String) : Bool × ℚ :=
  let messageLower := normalizeMsg userMessage
  if containsAnySub lesson_terms messageLower &&
      !(containsAnySub strong_inventory_terms messageLower) then
    (false, 0)
  else if high_confidence_patterns.any (fun p => reSearch p messageLower) then
    (true, 9/10)
  else
    let keywordMatches := inventory_keywords.countP (fun kw => isSubList kw.toList messageLower)
    if 2 ≤ keywordMatches then (true, 7/10)
    else if keywordMatches = 1 then (true, 5/10)
    else if containsAnySub inventory_words messageLower then (true, 4/10)
    else (false, 0)

/-- Every lesson term is nonempty and free of whitespace and hash marks, so
its occurrences survive the agent's normalisation. -/
theorem lesson_terms_clean : ∀ t ∈ lesson_terms,
    t.toList ≠ [] ∧ (∀ c ∈ t.toList, c.isWhitespace = false) ∧
    (∀ c ∈ t.toList, (c == '#') = false) := by decide

theorem restock_clean :
    ("restock".toList ≠ []) ∧ (∀ c ∈ "restock".toList, c.isWhitespace = false) ∧
    (∀ c ∈ "restock".toList, (c == '#') = false) := by decide

/-- Claim C4: the cross-domain guard.  First part: a message whose
lower-cased text contains a lesson-domain term and none of the strong
inventory terms is rejected with (false, 0).  Second part: a message whose
lower-cased text contains a lesson-domain term together with "restock" is
claimed ("restock" contains the strong cue "stock", so the guard passes and
the keyword stage fires even when no high-confidence pattern matches). -/
theorem inventory_cross_domain_guard (m : String) :
    (containsAnySub lesson_terms (lowerList m) = true →
      containsAnySub strong_inventory_terms (lowerList m) = false →
      inventory_can_handle m = (false, 0)) ∧
    (containsAnySub lesson_terms (lowerList m) = true →
      isSubList "restock".toList (lowerList m) = true →
      (inventory_can_handle m).1 = true) := by
  have hlesson : containsAnySub lesson_terms (lowerList m) = true →
      containsAnySub lesson_terms (normalizeMsg m) = true := by
    intro h
    rw [containsAnySub, List.any_eq_true] at h ⊢
    obtain ⟨t, ht, hsub⟩ := h
    obtain ⟨hne, hws, hhash⟩ := lesson_terms_clean t ht
    refine ⟨t, ht, ?_⟩
    rw [isSubList_iff_isInfixOf] at hsub ⊢
    exact infix_normalizeMsg_of_clean hne hws hhash hsub
  constructor
  · intro hl hs
    have hl' := hlesson hl
    have hs' : containsAnySub strong_inventory_terms (normalizeMsg m) = false := by
      by_contra hcon
      rw [Bool.not_eq_false, containsAnySub, List.any_eq_true] at hcon
      obtain ⟨t, ht, hsub⟩ := hcon
      have : isSubList t.toList (lowerList m) = true := by
        rw [isSubList_iff_isInfixOf] at hsub ⊢
        exact hsub.trans (normalizeMsg_infix_lower m)
      have : containsAnySub strong_inventory_terms (lowerList m) = true := by
        rw [containsAnySub, List.any_eq_true]
        exact ⟨t, ht, this⟩
      rw [this] at hs
      cases hs
    unfold inventory_can_handle
    dsimp only
    rw [hl', hs']
    rfl
  · intro hl hr
    have hl' := hlesson hl
    have hr' : isSubList "restock".toList (normalizeMsg m) = true := by
      obtain ⟨hne, hws, hhash⟩ := restock_clean
      rw [isSubList_iff_isInfixOf] at hr ⊢
      exact infix_normalizeMsg_of_clean hne hws hhash hr
    have hstock : isSubList "stock".toList (normalizeMsg m) = true :=
      isSubList_trans (by decide) hr'
    have hstrong : containsAnySub strong_inventory_terms (normalizeMsg m) = true := by
      rw [containsAnySub, List.any_eq_true]
      exact ⟨"stock", by decide, hstock⟩
    unfold inventory_can_handle
    dsimp only
    rw [hl', hstrong]
    simp only [Bool.not_true, Bool.and_false, Bool.false_eq_true, if_false]
    by_cases hpat : high_confidence_patterns.any (fun p => reSearch p (normalizeMsg m)) = true
    · rw [if_pos hpat]
    · rw [if_neg hpat]
      have hcount : 1 ≤ inventory_keywords.countP
          (fun kw => isSubList kw.toList (normalizeMsg m)) := by
        rw [Nat.succ_le_iff, List.countP_pos_iff]
        exact ⟨"stock", by decide, hstock⟩
      by_cases h2 : 2 ≤ inventory_keywords.countP
          (fun kw => isSubList kw.toList (normalizeMsg m))
      · rw [if_pos h2]
      · rw [if_neg h2]
        rw [if_pos (by omega)]

/-- Witness for C4: "show me the grade 7 lesson plan" is rejected by the
guard; "please restock the lesson kits" is claimed. -/
theorem inventory_cross_domain_guard_witness :
    inventory_can_handle "show me the grade 7 lesson plan" = (false, 0) ∧
    (inventory_can_handle "please restock the lesson kits").1 = true := by
  refine ⟨(inventory_cross_domain_guard "show me the grade 7 lesson plan").1
    (by decide) (by decide), ?_⟩
  exact (inventory_cross_domain_guard "please restock the lesson kits").2
    (by decide) (by decide)

/-!
Embedding of the inventory domain store and the two InventoryAgent
handlers the claims exercise: _handle_add_item and _handle_low_stock_alert.
SQL ilike '%pat%' is case-insensitive substring containment; the
add-handler's second pattern, '%pat-with-spaces-as-%%', is in-order
containment of the space-separated chunks.  Ids are assigned at insertion
from the store's counter; the transaction log is append-only.
-/

/-- A single-quote string, used to build Python f-string messages. -/
def sq : String := String.mk [apos]

/-- A row of the inventory_items table (fields the handlers touch). -/
structure InventoryItem where
  id : Nat
  name : String
  category : String
  description : Option String
  quantity : ℚ
  unit : String
  min_quantity : ℚ
  location : Option String
deriving DecidableEq

/-- A row of the inventory_transactions table. -/
structure InventoryTransaction where
  item_id : Nat
  transaction_type : String
  quantity_change : ℚ
  quantity_after : ℚ
  reason : String
deriving DecidableEq

/-- A row of the suppliers table. -/
structure Supplier where
  id : Nat
  name : String
  item_name : String
  contact_info : Option String
  order_url : Option String
  price_per_unit : Option ℚ
  lead_time_days : Option Nat
deriving DecidableEq

/-- The inventory handler's external store: items, the append-only
transaction log, suppliers, and the id counter for new rows. -/
structure InvStore where
  items : List InventoryItem
  transactions : List InventoryTransaction
  suppliers : List Supplier
  nextItemId : Nat
deriving DecidableEq

/-- field.ilike('%pat%'): case-insensitive substring containment. -/
def ilikeContains (field : String) (pat : String) : Bool :=
  isSubList (lowerList pat) (lowerList field)

/-- Split a character list on a separator character. -/
def splitChar (sep : Char) : List Char → List (List Char)
  | [] => [[]]
  | c :: rest =>
    let r := splitChar sep rest
    if c == sep then [] :: r
    else
      match r with
      | w :: ws => (c :: w) :: ws
      | [] => [[c]]

/-- Whether the words occur in order (with arbitrary gaps) in the haystack:
the semantics of LIKE with % between the chunks.  Greedy leftmost matching
is complete for this pattern shape. -/
def findFirstDrop (w : List Char) : List Char → Option (List Char)
  | [] => if w.isEmpty then some [] else none
  | c :: rest =>
    if w.isPrefixOf (c :: rest) then some ((c :: rest).drop w.length)
    else findFirstDrop w rest

def gapMatch : List (List Char) → List Char → Bool
  | [], _ => true
  | w :: ws, hay =>
    match findFirstDrop w hay with
    | none => false
    | some rest => gapMatch ws rest

/-- The existing-item check of _handle_add_item:
name.ilike('%item_name%') OR name.ilike('%item_name.replace(" ", "%")%'). -/
def matchesForAdd (itemName : String) (it : InventoryItem) : Bool :=
  ilikeContains it.name itemName ||
  gapMatch (splitChar ' ' (lowerList itemName)) (lowerList it.name)

/-- InventoryAgent._infer_category: ordered keyword-bucket heuristic. -/
def infer_category (itemName : String) : String :=
  let nameLower := lowerList itemName
  if containsAnySub ["microscope", "beaker", "flask", "test tube", "bunsen", "lab",
      "equipment"] nameLower then "Lab Equipment"
  else if containsAnySub ["pencil", "pen", "marker", "paper", "notebook", "eraser"]
      nameLower then "Stationery"
  else if containsAnySub ["arduino", "sensor", "circuit", "battery", "wire", "led",
      "resistor"] nameLower then "Electronics"
  else if containsAnySub ["kit", "set", "box", "pack"] nameLower then "Kits & Sets"
  else "General Supplies"

/-- The data dict of the add-item response. -/
structure ItemData where
  id : Nat
  name : String
  quantity : ℚ
  unit : String
deriving DecidableEq

/-- The result dict of _handle_add_item. -/
structure AddItemResult where
  success : Bool
  message : String
  item : Option ItemData
  actions : List String
deriving DecidableEq

/-- InventoryAgent._handle_add_item, lines 449-530: the store mutation after
quantity and item name have been extracted from the message (the extraction
regexes of lines 398-444 run upstream and their failure branches return
before any mutation); the raw message is still threaded into the
transaction reason strings.  If a stored item matches the extracted name
(substring or gapped-substring, case-insensitive), its quantity is
incremented and a transaction with the delta and the new total is appended;
otherwise a new item with the default minimum threshold 10 is created and
its first transaction appended. -/
def handle_add_item (message itemName : String) (quantity : ℚ) (store : InvStore) :
    AddItemResult × InvStore :=
  match store.items.filter (fun it => matchesForAdd itemName it) with
  | item :: _ =>
      let newQty := item.quantity + quantity
      let newItems := store.items.map
        (fun it => if it.id = item.id then { it with quantity := newQty } else it)
      let tx : InventoryTransaction :=
        ⟨item.id, "add", quantity, newQty, "Added via chat: " ++ message⟩
      (⟨true,
        "Added " ++ toString quantity ++ " " ++ item.unit ++ " of " ++ sq ++ item.name ++
          sq ++ ". New total: " ++ toString newQty ++ " " ++ item.unit ++ " (was " ++
          toString item.quantity ++ ")",
        some ⟨item.id, item.name, newQty, item.unit⟩,
        ["add_item", "update_quantity"]⟩,
       { store with items := newItems, transactions := store.transactions ++ [tx] })
  | [] =>
      let category := infer_category itemName
      let newItem : InventoryItem :=
        ⟨store.nextItemId, itemName, category, some "Added via chat", quantity, "units",
          10, none⟩
      let tx : InventoryTransaction :=
        ⟨store.nextItemId, "add", quantity, quantity,
          "Initial addition via chat: " ++ message⟩
      (⟨true,
        "Added new item " ++ sq ++ itemName ++ sq ++ " to inventory with quantity " ++
          toString quantity ++ " units (category: " ++ category ++ ")",
        some ⟨store.nextItemId, itemName, quantity, "units"⟩,
        ["add_item", "create_item"]⟩,
       ⟨store.items ++ [newItem], store.transactions ++ [tx], store.suppliers,
        store.nextItemId + 1⟩)

theorem find?_append_of_none {p : InventoryItem → Bool} {l₁ l₂ : List InventoryItem}
    (h : ∀ x ∈ l₁, p x = false) : (l₁ ++ l₂).find? p = l₂.find? p := by
  induction l₁ with
  | nil => rfl
  | cons x xs ih =>
    rw [List.cons_append, List.find?_cons, h x (List.mem_cons_self _ _)]
    exact ih (fun y hy => h y (List.mem_cons_of_mem _ hy))

/-- Claim C5: for every quantity Q and fresh item name (matching no stored
entity), running the add-item mutation twice accumulates: the store ends
with a single entity for the name carrying quantity 2Q and the default
minimum threshold 10, and exactly two transaction records for that entity
with quantity_after Q and 2Q; the first run creates the entity, the second
increments it. -/
theorem add_item_twice_accumulates (store : InvStore) (m1 m2 itemName : String) (Q : ℚ)
    (hfresh : ∀ it ∈ store.items, matchesForAdd itemName it = false)
    (hidf : ∀ it ∈ store.items, it.id ≠ store.nextItemId)
    (htxf : ∀ tx ∈ store.transactions, tx.item_id ≠ store.nextItemId) :
    (handle_add_item m1 itemName Q store).1.actions = ["add_item", "create_item"] ∧
    (handle_add_item m2 itemName Q
        (handle_add_item m1 itemName Q store).2).1.actions =
      ["add_item", "update_quantity"] ∧
    ((handle_add_item m2 itemName Q
        (handle_add_item m1 itemName Q store).2).2.items.find?
      (fun it => it.id == store.nextItemId)) =
      some ⟨store.nextItemId, itemName, infer_category itemName, some "Added via chat",
        Q + Q, "units", 10, none⟩ ∧
    (((handle_add_item m2 itemName Q
        (handle_add_item m1 itemName Q store).2).2.transactions.filter
      (fun tx => tx.item_id == store.nextItemId)).map
      (fun tx => tx.quantity_after)) = [Q, Q + Q] ∧
    Q + Q = 2 * Q := by
  have hfil : store.items.filter (fun it => matchesForAdd itemName it) = [] := by
    rw [List.filter_eq_nil_iff]
    intro a ha
    simp [hfresh a ha]
  have hself : matchesForAdd itemName
      (⟨store.nextItemId, itemName, infer_category itemName, some "Added via chat",
        Q, "units", 10, none⟩ : InventoryItem) = true := by
    unfold matchesForAdd ilikeContains
    rw [isSubList_refl]
    rfl
  have h1 : handle_add_item m1 itemName Q store =
      (⟨true,
        "Added new item " ++ sq ++ itemName ++ sq ++ " to inventory with quantity " ++
          toString Q ++ " units (category: " ++ infer_category itemName ++ ")",
        some ⟨store.nextItemId, itemName, Q, "units"⟩,
        ["add_item", "create_item"]⟩,
       ⟨store.items ++ [⟨store.nextItemId, itemName, infer_category itemName,
          some "Added via chat", Q, "units", 10, none⟩],
        store.transactions ++ [⟨store.nextItemId, "add", Q, Q,
          "Initial addition via chat: " ++ m1⟩],
        store.suppliers, store.nextItemId + 1⟩) := by
    unfold handle_add_item
    rw [hfil]
  have hfil2 : (store.items ++ [(⟨store.nextItemId, itemName, infer_category itemName,
      some "Added via chat", Q, "units", 10, none⟩ : InventoryItem)]).filter
      (fun it => matchesForAdd itemName it) =
      [⟨store.nextItemId, itemName, infer_category itemName, some "Added via chat",
        Q, "units", 10, none⟩] := by
    rw [List.filter_append, hfil, List.nil_append, List.filter_cons, hself]
    rfl
  have h2 : handle_add_item m2 itemName Q
      (⟨store.items ++ [⟨store.nextItemId, itemName, infer_category itemName,
          some "Added via chat", Q, "units", 10, none⟩],
        store.transactions ++ [⟨store.nextItemId, "add", Q, Q,
          "Initial addition via chat: " ++ m1⟩],
        store.suppliers, store.nextItemId + 1⟩ : InvStore) =
      ((⟨true,
        "Added " ++ toString Q ++ " " ++ "units" ++ " of " ++ sq ++ itemName ++ sq ++
          ". New total: " ++ toString (Q + Q) ++ " " ++ "units" ++ " (was " ++
          toString Q ++ ")",
        some ⟨store.nextItemId, itemName, Q + Q, "units"⟩,
        ["add_item", "update_quantity"]⟩ : AddItemResult),
       (⟨(store.items ++ [(⟨store.nextItemId, itemName, infer_category itemName,
            some "Added via chat", Q, "units", 10, none⟩ : InventoryItem)]).map
          (fun it => if it.id = store.nextItemId then { it with quantity := Q + Q }
            else it),
        (store.transactions ++ [⟨store.nextItemId, "add", Q, Q,
          "Initial addition via chat: " ++ m1⟩]) ++
          [⟨store.nextItemId, "add", Q, Q + Q, "Added via chat: " ++ m2⟩],
        store.suppliers, store.nextItemId + 1⟩ : InvStore)) := by
    unfold handle_add_item
    dsimp only
    rw [hfil2]
  have hmap : (store.items ++ [(⟨store.nextItemId, itemName, infer_category itemName,
      some "Added via chat", Q, "units", 10, none⟩ : InventoryItem)]).map
      (fun it => if it.id = store.nextItemId then { it with quantity := Q + Q } else it) =
      store.items ++ [⟨store.nextItemId, itemName, infer_category itemName,
        some "Added via chat", Q + Q, "units", 10, none⟩] := by
    rw [List.map_append]
    congr 1
    · have : ∀ it ∈ store.items,
          (if it.id = store.nextItemId then { it with quantity := Q + Q } else it) =
          id it := by
        intro it hit
        rw [if_neg (hidf it hit)]
        rfl
      rw [List.map_congr_left this, List.map_id]
    · simp
  have htx0 : store.transactions.filter
      (fun tx => tx.item_id == store.nextItemId) = [] := by
    rw [List.filter_eq_nil_iff]
    intro a ha
    simp [htxf a ha]
  refine ⟨by rw [h1], ?_, ?_, ?_, (two_mul Q).symm⟩
  · rw [h1]
    dsimp only
    rw [h2]
  · rw [h1]
    dsimp only
    rw [h2]
    dsimp only
    rw [hmap, find?_append_of_none]
    · rw [List.find?_cons]
      simp
    · intro x hx
      simp [hidf x hx]
  · rw [h1]
    dsimp only
    rw [h2]
    dsimp only
    rw [List.filter_append, List.filter_append, htx0]
    simp

/-- Witness for C5: adding 25 widgets twice to an empty store. -/
theorem add_item_twice_accumulates_witness :
    ((handle_add_item "add 25 widgets" "widgets" 25
        (handle_add_item "add 25 widgets" "widgets" 25 ⟨[], [], [], 1⟩).2).2.items.find?
      (fun it => it.id == 1)) =
      some ⟨1, "widgets", infer_category "widgets", some "Added via chat",
        25 + 25, "units", 10, none⟩ ∧
    (((handle_add_item "add 25 widgets" "widgets" 25
        (handle_add_item "add 25 widgets" "widgets" 25 ⟨[], [], [], 1⟩).2).2.transactions.filter
      (fun tx => tx.item_id == 1)).map (fun tx => tx.quantity_after)) =
      [25, 25 + 25] := by
  have h := add_item_twice_accumulates ⟨[], [], [], 1⟩ "add 25 widgets" "add 25 widgets"
    "widgets" 25 (by intro it hit; cases hit) (by intro it hit; cases hit)
    (by intro tx htx; cases htx)
  exact ⟨h.2.2.1, h.2.2.2.1⟩

/-!
Embedding of InventoryAgent._handle_low_stock_alert (lines 117-235).  The
item name extracted from the message by _extract_item_name is a parameter
(Option String: None models the "no specific item" aggregate branch); the
natural-language rendering collaborator is the chat parameter, degraded to
the deterministic template when it fails.
-/

/-- A supplier entry of the item_facts payload handed to the renderer. -/
structure SupplierFact where
  name : String
  price : Option ℚ
  order_url : Option String
  lead_time : Option Nat
deriving DecidableEq

/-- The item_facts payload of the single-item low-stock branch, with the
derived status flags: critical iff quantity < 0.5 x minimum, low iff
quantity <= minimum. -/
structure ItemFacts where
  name : String
  current_stock : ℚ
  unit : String
  min_threshold : ℚ
  is_critical : Bool
  is_low : Bool
  category : String
  location : Option String
  suppliers : List SupplierFact
deriving DecidableEq

/-- A supplier entry of the response data dict (name, url, price). -/
structure SupplierRef where
  name : String
  url : Option String
  price : Option ℚ
deriving DecidableEq

/-- The result dict of _handle_low_stock_alert: success, rendered message,
the data payload (found item and its suppliers, or the aggregate list of
low-stock item names and quantities) and action tags. -/
structure LowStockResult where
  success : Bool
  message : String
  item : Option ItemData
  suppliers : List SupplierRef
  low_stock_items : List (String × ℚ)
  actions : List String
deriving DecidableEq

/-- select(InventoryItem).where(name.ilike('%n%') | category.ilike('%n%')). -/
def matchedInventoryItems (store : InvStore) (n : String) : List InventoryItem :=
  store.items.filter (fun it => ilikeContains it.name n || ilikeContains it.category n)

/-- select(Supplier).where(Supplier.item_name.ilike('%n%')). -/
def matchedSuppliers (store : InvStore) (n : String) : List Supplier :=
  store.suppliers.filter (fun s => ilikeContains s.item_name n)

/-- The item_facts dict built at lines 146-163: name, stock, unit,
threshold, is_critical = quantity < min x 0.5, is_low = quantity <= min,
category, location and the matched suppliers. -/
def lowStockFacts (item : InventoryItem) (suppliers : List Supplier) : ItemFacts :=
  ⟨item.name, item.quantity, item.unit, item.min_quantity,
   decide (item.quantity < item.min_quantity * (5/10)),
   decide (item.quantity ≤ item.min_quantity),
   item.category, item.location,
   suppliers.map (fun s => ⟨s.name, s.price_per_unit, s.order_url, s.lead_time_days⟩)⟩

/-- Python str(x) on optional values (None prints as "None"). -/
def pyOptStr (o : Option String) : String :=
  match o with
  | some v => v
  | none => "None"

def pyOptRat (o : Option ℚ) : String :=
  match o with
  | some v => toString v
  | none => "None"

def pyOptNat (o : Option Nat) : String :=
  match o with
  | some v => toString v
  | none => "None"

/-- The system prompt of _generate_low_stock_response. -/
def lowStockSystemPrompt : String :=
  "You are a helpful inventory management assistant for a STEM center.\n" ++
  "When items are low or out of stock, provide clear, actionable advice.\n" ++
  "Be professional and concise. Include supplier information when available.\n" ++
  "Do not use emojis. Use clear text-based formatting."

/-- The user prompt of _generate_low_stock_response, assembled from the
fact payload. -/
def lowStockUserPrompt (message : String) (f : ItemFacts) : String :=
  let suppliersStr :=
    if f.suppliers.isEmpty then "No suppliers configured"
    else String.intercalate "\n" (f.suppliers.map (fun s =>
      "- " ++ s.name ++ ": $" ++ pyOptRat s.price ++ "/" ++ f.unit ++
      ", lead time: " ++ pyOptNat s.lead_time ++ " days, order: " ++
      pyOptStr s.order_url))
  "User said: \"" ++ message ++ "\"\n\nItem: " ++ f.name ++
  "\nCurrent stock: " ++ toString f.current_stock ++ " " ++ f.unit ++
  "\nMinimum threshold: " ++ toString f.min_threshold ++ " " ++ f.unit ++
  "\nStatus: " ++
  (if f.is_critical then "CRITICAL - below 50% of minimum"
   else if f.is_low then "LOW - at or below minimum" else "Adequate") ++
  "\nLocation: " ++ pyOptStr f.location ++
  "\n\nAvailable suppliers:\n" ++ suppliersStr ++
  "\n\nProvide a natural, helpful response about this inventory situation. " ++
  "If suppliers are available, mention them with ordering links."

/-- InventoryAgent._generate_low_stock_response: render through the
generation collaborator, degrading to the deterministic template when the
call fails. -/
def generate_low_stock_response (chat : List ChatMsg → Except String String)
    (message : String) (f : ItemFacts) : String :=
  match chat [⟨"system", lowStockSystemPrompt⟩, ⟨"user", lowStockUserPrompt message f⟩] with
  | .ok response => response
  | .error _ =>
      let status := if f.is_low then "LOW" else "OK"
      let base := "Status: " ++ status ++ " - " ++ f.name ++ ": " ++
        toString f.current_stock ++ " " ++ f.unit
      if f.suppliers.isEmpty then base
      else base ++ "\n\nSuppliers: " ++
        String.intercalate ", " (f.suppliers.map (fun s => s.name))

/-- The per-item fact dict of the aggregate (no specific item) branch. -/
structure LowStockAggFact where
  name : String
  current_stock : ℚ
  unit : String
  min_threshold : ℚ
  category : String
  location : String
  is_critical : Bool
  suppliers_available : Bool
  supplier_names : List String
deriving DecidableEq

/-- One aggregate fact entry: suppliers are looked up by the item's name. -/
def aggLowStockFact (store : InvStore) (item : InventoryItem) : LowStockAggFact :=
  let suppliers := matchedSuppliers store item.name
  ⟨item.name, item.quantity, item.unit, item.min_quantity, item.category,
   pyOptStr item.location,
   decide (item.quantity < item.min_quantity * (5/10)),
   !suppliers.isEmpty,
   suppliers.map (fun s => s.name)⟩

/-- InventoryAgent._generate_all_low_stock_response, degraded to the
deterministic list template when the collaborator fails. -/
def generate_all_low_stock_response (chat : List ChatMsg → Except String String)
    (facts : List LowStockAggFact) : String :=
  let summary := String.intercalate "\n" (facts.map (fun f =>
    (if f.is_critical then "[CRITICAL] " else "[LOW] ") ++ f.name ++ ": " ++
    toString f.current_stock ++ " " ++ f.unit ++ " (min: " ++
    toString f.min_threshold ++ ")"))
  match chat [⟨"system", "You are a helpful inventory management assistant for a STEM center."⟩,
      ⟨"user", "Low stock items summary:\n" ++ summary⟩] with
  | .ok response => response
  | .error _ =>
      "**Low Stock Alert** - " ++ toString facts.length ++
        " items need restocking:\n\n" ++ summary

/-- InventoryAgent._handle_low_stock_alert: with an extracted item name,
look the item up by name/category substring; if found, build the fact
payload and the supplier list and render; if not found, report not-found
with a creation hint; with no item name, report on all low-stock items. -/
def handle_low_stock_alert (chat : List ChatMsg → Except String String)
    (itemName : Option String) (store : InvStore) : LowStockResult :=
  match itemName with
  | some n =>
    match matchedInventoryItems store n with
    | item :: _ =>
      let suppliers := matchedSuppliers store n
      let facts := lowStockFacts item suppliers
      let response := generate_low_stock_response chat n facts
      ⟨true, response,
       some ⟨item.id, item.name, item.quantity, item.unit⟩,
       suppliers.map (fun s => ⟨s.name, s.order_url, s.price_per_unit⟩),
       [],
       ["stock_check", "supplier_lookup"]⟩
    | [] =>
      ⟨false, "Item " ++ sq ++ n ++ sq ++
        " not found in inventory. Would you like to add it?",
       none, [], [], ["item_not_found"]⟩
  | none =>
    let lowStockItems := store.items.filter
      (fun it => decide (it.quantity ≤ it.min_quantity))
    match lowStockItems with
    | [] => ⟨true, "All inventory items are adequately stocked.", none, [], [],
        ["low_stock_check"]⟩
    | _ :: _ =>
      let facts := lowStockItems.map (fun it => aggLowStockFact store it)
      ⟨true, generate_all_low_stock_response chat facts, none, [],
       lowStockItems.map (fun it => (it.name, it.quantity)),
       ["low_stock_check"]⟩

/-- Claim C7: for a matched item, the fact payload derives is_low iff
quantity <= minimum and is_critical iff quantity < 0.5 x minimum, carries
every configured supplier whose item name matches the query name, and the
handler returns success with that item and those suppliers in its data. -/
theorem low_stock_facts_spec (store : InvStore) (n : String) (item : InventoryItem)
    (rest : List InventoryItem)
    (hmatch : matchedInventoryItems store n = item :: rest) :
    ((lowStockFacts item (matchedSuppliers store n)).is_low = true ↔
      item.quantity ≤ item.min_quantity) ∧
    ((lowStockFacts item (matchedSuppliers store n)).is_critical = true ↔
      item.quantity < item.min_quantity * (5/10)) ∧
    ((lowStockFacts item (matchedSuppliers store n)).suppliers =
      (store.suppliers.filter (fun s => ilikeContains s.item_name n)).map
        (fun s => ⟨s.name, s.price_per_unit, s.order_url, s.lead_time_days⟩)) ∧
    (∀ chat, handle_low_stock_alert chat (some n) store =
      ⟨true,
       generate_low_stock_response chat n (lowStockFacts item (matchedSuppliers store n)),
       some ⟨item.id, item.name, item.quantity, item.unit⟩,
       (matchedSuppliers store n).map (fun s => ⟨s.name, s.order_url, s.price_per_unit⟩),
       [],
       ["stock_check", "supplier_lookup"]⟩) := by
  refine ⟨by simp [lowStockFacts], by simp [lowStockFacts], rfl, ?_⟩
  intro chat
  unfold handle_low_stock_alert
  dsimp only
  rw [hmatch]

/-- Witness for C7: the spec scenario.  Markers with quantity 8 and minimum
15 queried as "markers": is_low is true (8 <= 15), is_critical is false
(8 is not below 7.5), and the single supplier configured for markers is
carried along while an unrelated supplier is not. -/
theorem low_stock_facts_spec_witness :
    ((lowStockFacts ⟨1, "Markers", "Stationery", none, 8, "boxes", 15, none⟩
        (matchedSuppliers
          ⟨[⟨1, "Markers", "Stationery", none, 8, "boxes", 15, none⟩], [],
           [⟨1, "OfficeCo", "Markers", none, some "http:jx", some 3, some 5⟩,
            ⟨2, "LabCo", "Beakers", none, none, none, none⟩], 2⟩
          "markers")).is_low = true) ∧
    ((lowStockFacts ⟨1, "Markers", "Stationery", none, 8, "boxes", 15, none⟩
        (matchedSuppliers
          ⟨[⟨1, "Markers", "Stationery", none, 8, "boxes", 15, none⟩], [],
           [⟨1, "OfficeCo", "Markers", none, some "http:jx", some 3, some 5⟩,
            ⟨2, "LabCo", "Beakers", none, none, none, none⟩], 2⟩
          "markers")).is_critical = false) ∧
    (∀ chat, handle_low_stock_alert chat (some "markers")
      ⟨[⟨1, "Markers", "Stationery", none, 8, "boxes", 15, none⟩], [],
       [⟨1, "OfficeCo", "Markers", none, some "http:jx", some 3, some 5⟩,
        ⟨2, "LabCo", "Beakers", none, none, none, none⟩], 2⟩ =
      ⟨true,
       generate_low_stock_response chat "markers"
         (lowStockFacts ⟨1, "Markers", "Stationery", none, 8, "boxes", 15, none⟩
           (matchedSuppliers
             ⟨[⟨1, "Markers", "Stationery", none, 8, "boxes", 15, none⟩], [],
              [⟨1, "OfficeCo", "Markers", none, some "http:jx", some 3, some 5⟩,
               ⟨2, "LabCo", "Beakers", none, none, none, none⟩], 2⟩
             "markers")),
       some ⟨1, "Markers", 8, "boxes"⟩,
       [⟨"OfficeCo", some "http:jx", some 3⟩],
       [],
       ["stock_check", "supplier_lookup"]⟩) := by
  have h := low_stock_facts_spec
    ⟨[⟨1, "Markers", "Stationery", none, 8, "boxes", 15, none⟩], [],
     [⟨1, "OfficeCo", "Markers", none, some "http:jx", some 3, some 5⟩,
      ⟨2, "LabCo", "Beakers", none, none, none, none⟩], 2⟩
    "markers" ⟨1, "Markers", "Stationery", none, 8, "boxes", 15, none⟩ [] rfl
  refine ⟨h.1.mpr (by norm_num), ?_, ?_⟩
  · have hnc : ¬((8 : ℚ) < 15 * (5/10)) := by norm_num
    cases hb : (lowStockFacts ⟨1, "Markers", "Stationery", none, 8, "boxes", 15, none⟩
        (matchedSuppliers
          ⟨[⟨1, "Markers", "Stationery", none, 8, "boxes", 15, none⟩], [],
           [⟨1, "OfficeCo", "Markers", none, some "http:jx", some 3, some 5⟩,
            ⟨2, "LabCo", "Beakers", none, none, none, none⟩], 2⟩
          "markers")).is_critical with
    | false => rfl
    | true => exact absurd (h.2.1.mp hb) hnc
  · intro chat
    exact (h.2.2.2 chat).trans rfl

/-!
Embedding of the retrieval handler's summarization fallback
(lesson_plan_agent.py: truncate_text lines 73-93 and summarize_lesson_plan
lines 95-132).  Python's str.rfind is rfindIdx (-1 when absent); the float
thresholds max_length*0.6 and max_length*0.7 are the exact rationals 6/10
and 7/10 of the length budget.
-/

/-- str.rfind(c): index of the last occurrence, -1 when absent. -/
def rfindIdx (c : Char) (l : List Char) : Int :=
  match (l.enum.filter (fun p => p.2 == c)).getLast? with
  | some p => (p.1 : Int)
  | none => -1

/-- truncate_text(text, max_length): return short texts unchanged;
otherwise cut the length-budget prefix at the last sentence terminator if
it lies within the last 40% of the budget, else at the last space if it
lies within the last 30% of the budget, else keep the raw prefix; append
an ellipsis.  The agent calls it with max_length=500 (default 600).
Python compares the int index against the floats max_length*0.6 and
max_length*0.7; both are exact, so idx > max_length*0.6 is written as the
integer comparison 6*max_length < 10*idx (and likewise with 7). -/
def truncate_text (text : List Char) (maxLength : Nat) : List Char :=
  if text = [] then []
  else if text.length ≤ maxLength then text
  else
    let truncated := text.take maxLength
    let lastSentence : Int :=
      max (max (rfindIdx '.' truncated) (rfindIdx '!' truncated)) (rfindIdx '?' truncated)
    let truncated2 : List Char :=
      if 6 * (maxLength : Int) < 10 * lastSentence then
        truncated.take (lastSentence.toNat + 1)
      else
        let lastSpace : Int := rfindIdx ' ' truncated
        if 7 * (maxLength : Int) < 10 * lastSpace then
          truncated.take lastSpace.toNat
        else truncated
    truncated2 ++ ("...".toList)

/-- The system prompt of summarize_lesson_plan. -/
def summarizeSystemPrompt : String :=
  "You are a helpful assistant that summarizes lesson plans concisely. " ++
  "Provide a 2-3 sentence summary highlighting the key learning objectives " ++
  "and activities. Do not include phrases like " ++ sq ++ "Here is a summary" ++
  sq ++ " or " ++ sq ++ "This lesson plan" ++ sq ++
  " - just provide the summary directly."

/-- The boilerplate lead-in phrases stripped from the collaborator output. -/
def summary_prefixes : List String :=
  ["Here is a 2-3 sentence summary of the lesson plan:",
   "Here is a summary:",
   "Summary:",
   "This lesson plan",
   "The lesson plan"]

/-- The prefix-removal loop of summarize_lesson_plan: for each known
prefix in order, strip it (and a following colon) from the summary. -/
def stripSummaryPrefixes (s : List Char) : List Char :=
  summary_prefixes.foldl (fun acc p =>
    if p.toList.isPrefixOf acc then
      let acc1 := pyStripChars (acc.drop p.toList.length)
      if acc1.head? = some ':' then pyStripChars (acc1.drop 1) else acc1
    else acc) s

/-- summarize_lesson_plan: short documents pass through; otherwise ask the
generation collaborator for a 2-3 sentence summary of the first 1000
characters, cleaning boilerplate lead-ins; when the call fails, fall back
to the deterministic truncation with budget 500. -/
def summarize_lesson_plan (chat : List ChatMsg → Except String String)
    (docContent : List Char) (userQuery : String) : List Char :=
  if docContent = [] ∨ docContent.length < 100 then docContent
  else
    let contentPreview :=
      if 1000 < docContent.length then docContent.take 1000 else docContent
    match chat [⟨"system", summarizeSystemPrompt⟩,
        ⟨"user", "User is looking for: " ++ userQuery ++
          "\n\nLesson plan content:\n" ++ String.mk contentPreview ++
          "\n\nProvide a concise 2-3 sentence summary of this lesson plan."⟩] with
    | .ok summary => stripSummaryPrefixes (pyStripChars summary.toList)
    | .error _ => truncate_text docContent 500

/-- Claim C6 (amended): when the summarization call fails on a document
long enough to be summarized, the handler returns exactly the
deterministic truncation of the source text with budget 500 (cut at the
last sentence terminator within the last 40% of the budget, else at the
last word boundary when it lies within the last 30%, else the raw budget
prefix, with an ellipsis appended); the result is never empty and never
the raw exception text, and when the source exceeds the budget the result
is a nonempty cut followed by the ellipsis marker. -/
theorem summarize_failure_truncates (chat : List ChatMsg → Except String String)
    (err : String) (doc : List Char) (q : String)
    (hfail : ∀ msgs, chat msgs = Except.error err)
    (hlen : 100 ≤ doc.length) :
    summarize_lesson_plan chat doc q = truncate_text doc 500 ∧
    truncate_text doc 500 ≠ [] ∧
    (500 < doc.length →
      ∃ cut, truncate_text doc 500 = cut ++ ("...".toList) ∧ cut ≠ []) := by
  have hne : doc ≠ [] := by
    intro h
    rw [h] at hlen
    simp at hlen
  have htake : doc.take 500 ≠ [] := by
    rw [Ne, List.take_eq_nil_iff]
    push_neg
    exact ⟨by omega, hne⟩
  refine ⟨?_, ?_, ?_⟩
  · unfold summarize_lesson_plan
    rw [if_neg (by push_neg; exact ⟨hne, by omega⟩)]
    dsimp only
    rw [hfail]
  · unfold truncate_text
    rw [if_neg hne]
    by_cases hl5 : doc.length ≤ 500
    · rw [if_pos hl5]
      exact hne
    · rw [if_neg hl5]
      simp
  · intro hgt
    unfold truncate_text
    rw [if_neg hne, if_neg (by omega)]
    dsimp only
    by_cases h1 : 6 * ((500 : Nat) : Int) <
        10 * max (max (rfindIdx '.' (doc.take 500)) (rfindIdx '!' (doc.take 500)))
          (rfindIdx '?' (doc.take 500))
    · rw [if_pos h1]
      refine ⟨_, rfl, ?_⟩
      rw [Ne, List.take_eq_nil_iff]
      push_neg
      exact ⟨by omega, htake⟩
    · rw [if_neg h1]
      by_cases h2 : 7 * ((500 : Nat) : Int) < 10 * rfindIdx ' ' (doc.take 500)
      · rw [if_pos h2]
        refine ⟨_, rfl, ?_⟩
        rw [Ne, List.take_eq_nil_iff]
        push_neg
        refine ⟨?_, htake⟩
        omega
      · rw [if_neg h2]
        exact ⟨_, rfl, htake⟩

/-- Witness for C6 (amended): a 120-character document with a failing
collaborator: the handler returns the truncation, which is nonempty (here
the document itself, being within the budget). -/
theorem summarize_failure_truncates_witness :
    summarize_lesson_plan (fun _ => Except.error "llm down")
        (List.replicate 120 'x') "q" =
      truncate_text (List.replicate 120 'x') 500 ∧
    truncate_text (List.replicate 120 'x') 500 ≠ [] := by
  have h := summarize_failure_truncates (fun _ => Except.error "llm down") "llm down"
    (List.replicate 120 'x') "q" (fun _ => rfl) (by decide)
  exact ⟨h.1, h.2.1⟩

set_option maxRecDepth 100000 in
/-- Counterexample to claim C6 as stated: on a source whose length-500
prefix has no sentence terminator and whose last word boundary sits at
index 2 (far outside the last 30% of the budget), the code keeps the raw
500-character prefix instead of cutting at the word boundary, so "if no
sentence terminator is close enough, it is cut at the nearest preceding
word boundary" fails. -/
theorem truncate_word_boundary_counterexample :
    summarize_lesson_plan (fun _ => Except.error "boom")
        ("aa bb".toList ++ List.replicate 600 'c') "query" =
      truncate_text ("aa bb".toList ++ List.replicate 600 'c') 500 ∧
    rfindIdx '.' (("aa bb".toList ++ List.replicate 600 'c').take 500) = -1 ∧
    rfindIdx '!' (("aa bb".toList ++ List.replicate 600 'c').take 500) = -1 ∧
    rfindIdx '?' (("aa bb".toList ++ List.replicate 600 'c').take 500) = -1 ∧
    rfindIdx ' ' (("aa bb".toList ++ List.replicate 600 'c').take 500) = 2 ∧
    truncate_text ("aa bb".toList ++ List.replicate 600 'c') 500 =
      ("aa bb".toList ++ List.replicate 600 'c').take 500 ++ "...".toList ∧
    truncate_text ("aa bb".toList ++ List.replicate 600 'c') 500 ≠
      ("aa bb".toList ++ List.replicate 600 'c').take 2 ++ "...".toList := by
  decide

end GroupChat
